import Mathlib

/-!
Shallow embedding of the shopping-cart ledger of this repository.

The primary variant is the React component in `src/App.tsx`: a cart is a
list of `CartItem` values (a product together with a quantity), the
mutation handlers `addToCart`, `updateQuantity` and `removeItem` are pure
list transformations, and the derived totals (`subtotal`, `tax`, `total`,
`totalItems`) are recomputed from the list on every render.  The
Firestore-backed variant in `src/unnamed/part_004` recomputes
`subtotal`/`shipping`/`total` in its snapshot listener, and the DOM-based
variant in `src/script.js` keeps quantities in `<input>` elements and
coerces invalid entries in `quantityChanged`.

Prices and money amounts are JavaScript numbers in the source; they are
embedded as rationals (`ℚ`), quantities and product ids as integers.
-/

/-- The `Product` interface from `src/App.tsx` (lines 5-10): an immutable catalog entry. -/
structure Product where
  id : Int
  name : String
  price : ℚ
  image : String
deriving DecidableEq

/-- The `CartItem` interface from `src/App.tsx` (lines 13-15): a product plus a quantity. -/
structure CartItem where
  id : Int
  name : String
  price : ℚ
  image : String
  quantity : Int
deriving DecidableEq

/-- A cart is the React state `cart : CartItem[]` of `src/App.tsx`. -/
abbrev Cart := List CartItem

/-- The fixed tax rate of `src/App.tsx` line 33: `const taxRate = 0.15`. -/
def appTaxRate : ℚ := 15 / 100

/-- Derived totals of `src/App.tsx` lines 31-35. -/
structure Totals where
  subtotal : ℚ
  tax : ℚ
  total : ℚ
  itemCount : Int
deriving DecidableEq

/-- Lines 31-35 of `src/App.tsx`:
`subtotal = cart.reduce((sum, item) => sum + item.price * item.quantity, 0)`,
`totalItems = cart.reduce((sum, item) => sum + item.quantity, 0)`,
`tax = subtotal * taxRate`, `total = subtotal + tax`. -/
def computeTotals (cart : Cart) (taxRate : ℚ) : Totals :=
  let subtotal := cart.foldl (fun sum item => sum + item.price * (item.quantity : ℚ)) 0
  let totalItems := cart.foldl (fun sum item => sum + item.quantity) 0
  let tax := subtotal * taxRate
  let total := subtotal + tax
  { subtotal := subtotal, tax := tax, total := total, itemCount := totalItems }

/-- Function `addToCart` from `src/App.tsx` lines 38-53: if a line with the product's
id exists, map over the cart incrementing that line's quantity by 1;
otherwise append a fresh line with quantity 1. -/
def addToCart (cart : Cart) (product : Product) : Cart :=
  match cart.find? (fun item => item.id == product.id) with
  | some _ =>
      cart.map (fun item =>
        if item.id == product.id then { item with quantity := item.quantity + 1 } else item)
  | none =>
      cart ++ [{ id := product.id, name := product.name, price := product.price,
                 image := product.image, quantity := 1 }]

/-- Function `removeItem` from `src/App.tsx` lines 56-58:
`prevCart.filter(item => item.id !== productId)`. -/
def removeItem (cart : Cart) (productId : Int) : Cart :=
  cart.filter (fun item => item.id != productId)

/-- Function `updateQuantity` from `src/App.tsx` lines 61-76: the reducer pushes each
non-matching item unchanged; a matching item is pushed with
`quantity + delta` when that is positive and dropped otherwise.  The
push-in-order reducer is embedded as `filterMap`. -/
def updateQuantity (cart : Cart) (productId : Int) (delta : Int) : Cart :=
  cart.filterMap (fun item =>
    if item.id == productId then
      let newQuantity := item.quantity + delta
      if newQuantity > 0 then some { item with quantity := newQuantity } else none
    else some item)

/-- The `setCart([])` call in `handlePurchase` (`src/App.tsx` line 87); the spec's
`clear(cart)`. -/
def clearCart (_cart : Cart) : Cart := []

/-- The checkout outcome surfaced by `handlePurchase` (`src/App.tsx`
lines 79-88): either the empty-cart warning string or the success string,
which interpolates the order total and the item count. -/
inductive PurchaseMessage where
  | emptyCartWarning
  | success (total : ℚ) (totalItems : Int)
deriving DecidableEq

/-- The React state of `src/App.tsx` that `handlePurchase` reads and
writes: the `cart` and `purchaseMessage` `useState` cells. -/
structure AppState where
  cart : Cart
  purchaseMessage : Option PurchaseMessage
deriving DecidableEq

/-- Function `handlePurchase` from `src/App.tsx` lines 79-88: an empty cart produces
the warning and returns early; otherwise the success message (carrying the
derived `total` and `totalItems`) is set and the cart is cleared. -/
def handlePurchase (s : AppState) : AppState :=
  if s.cart.length = 0 then
    { s with purchaseMessage := some PurchaseMessage.emptyCartWarning }
  else
    { cart := clearCart s.cart,
      purchaseMessage := some (PurchaseMessage.success
        (computeTotals s.cart appTaxRate).total
        (computeTotals s.cart appTaxRate).itemCount) }

/-- Function `updateCartItemQuantity` from `src/unnamed/part_004` lines 257-267:
map `delta` onto the matching line, then keep only lines with
`quantity > 0`. -/
def updateCartItemQuantity (items : Cart) (productId : Int) (delta : Int) : Cart :=
  (items.map (fun item =>
      if item.id == productId then { item with quantity := item.quantity + delta }
      else item)).filter
    (fun item => item.quantity > 0)

/-- Totals of the Firestore snapshot listener, `src/unnamed/part_004`
lines 194-204. -/
structure FsTotals where
  subtotal : ℚ
  shipping : ℚ
  total : ℚ
deriving DecidableEq

/-- From `src/unnamed/part_004` lines 194-204:
`subtotal = validatedItems.reduce((acc, item) => acc + item.price * item.quantity, 0)`,
`shipping = subtotal > 1000 ? 0 : 50`, `total = subtotal + shipping`. -/
def fsCartTotals (validatedItems : Cart) : FsTotals :=
  let subtotal := validatedItems.foldl (fun acc item => acc + item.price * (item.quantity : ℚ)) 0
  let shipping : ℚ := if subtotal > 1000 then 0 else 50
  let total := subtotal + shipping
  { subtotal := subtotal, shipping := shipping, total := total }

/-- One `.cart-row` of the DOM-based variant `src/script.js`: a title, a
price and the quantity `<input>`'s value.  `none` models an input value
that is not a number (`isNaN(input.value)`). -/
structure DomRow where
  title : String
  price : ℚ
  quantity : Option ℚ
deriving DecidableEq

/-- Lines 144-146 of `src/script.js`:
`if (isNaN(input.value) || input.value <= 0) { input.value = 1; }`. -/
def coerceQuantity (value : Option ℚ) : Option ℚ :=
  match value with
  | none => some 1
  | some v => if v ≤ 0 then some 1 else some v

/-- Function `quantityChanged` from `src/script.js` lines 141-148: the handler
rewrites the changed input's value in place (row `i` has just received
`newValue`) and leaves every other row of the cart untouched. -/
def quantityChanged (rows : List DomRow) (i : Nat) (newValue : Option ℚ) : List DomRow :=
  rows.mapIdx (fun j row =>
    if j = i then { row with quantity := coerceQuantity newValue } else row)

/-- Every line of the cart has a strictly positive quantity (the spec's
CartLine invariant). -/
def PosQty (cart : Cart) : Prop := ∀ item ∈ cart, 0 < item.quantity

-- The concrete scenario of the spec: one line of a price-10.00 product and
-- one line of a price-20.00 product.
def productA : Product := { id := 1, name := "A", price := 10, image := "a" }

def productB : Product := { id := 2, name := "B", price := 20, image := "b" }

/-- A concrete one-line cart used to instantiate the hypothesis-bearing
theorems. -/
def demoCart : Cart := [{ id := 1, name := "A", price := 10, image := "a", quantity := 1 }]

/-- Helper: the `reduce`-style subtotal agrees with the mathematical sum of
`quantity * price` over the lines, for any initial accumulator. -/
theorem foldl_price_eq_sum (cart : Cart) (init : ℚ) :
    cart.foldl (fun sum item => sum + item.price * (item.quantity : ℚ)) init
      = init + (cart.map (fun item => (item.quantity : ℚ) * item.price)).sum := by
  induction cart generalizing init with
  | nil => simp
  | cons hd tl ih =>
      simp only [List.foldl_cons, List.map_cons, List.sum_cons, ih]
      ring

/-- Helper: the `reduce`-style item count agrees with the sum of quantities,
for any initial accumulator. -/
theorem foldl_quantity_eq_sum (cart : Cart) (init : Int) :
    cart.foldl (fun sum item => sum + item.quantity) init
      = init + (cart.map (fun item => item.quantity)).sum := by
  induction cart generalizing init with
  | nil => simp
  | cons hd tl ih =>
      simp only [List.foldl_cons, List.map_cons, List.sum_cons, ih]
      ring

/-- C1: for every cart and tax rate, `computeTotals` returns the sum of
`quantity * price` as `subtotal`, the sum of quantities as `itemCount`,
`subtotal * taxRate` as `tax` and `subtotal + tax` as `total`; on the cart
holding one line of a price-10.00 product and one line of a price-20.00
product at tax rate 0.15 it returns subtotal 30.00, tax 4.50, total 34.50. -/
theorem computeTotals_correct :
    (∀ (cart : Cart) (taxRate : ℚ),
        (computeTotals cart taxRate).subtotal
            = (cart.map (fun item => (item.quantity : ℚ) * item.price)).sum ∧
        (computeTotals cart taxRate).itemCount
            = (cart.map (fun item => item.quantity)).sum ∧
        (computeTotals cart taxRate).tax
            = (computeTotals cart taxRate).subtotal * taxRate ∧
        (computeTotals cart taxRate).total
            = (computeTotals cart taxRate).subtotal + (computeTotals cart taxRate).tax) ∧
    computeTotals (addToCart (addToCart [] productA) productB) (15 / 100)
      = { subtotal := 30, tax := 45 / 10, total := 345 / 10, itemCount := 2 } := by
  constructor
  · intro cart taxRate
    refine ⟨?_, ?_, rfl, rfl⟩
    · simpa [computeTotals] using foldl_price_eq_sum cart 0
    · simpa [computeTotals] using foldl_quantity_eq_sum cart 0
  · norm_num [computeTotals, addToCart, productA, productB, List.find?, Totals.mk.injEq,
      show ((1 : Int) == 2) = false by decide]

/-- C6: `removeItem` is idempotent: removing the same product id twice
yields the same cart as removing it once. -/
theorem removeItem_idempotent (cart : Cart) (productId : Int) :
    removeItem (removeItem cart productId) productId = removeItem cart productId := by
  simp [removeItem, List.filter_filter]

/-- C4: a mutation targeting a product id absent from the cart is a no-op:
both `updateQuantity` and `removeItem` return the cart unchanged. -/
theorem absent_target_noop (cart : Cart) (productId delta : Int)
    (habs : ∀ item ∈ cart, item.id ≠ productId) :
    updateQuantity cart productId delta = cart ∧ removeItem cart productId = cart := by
  refine ⟨?_, ?_⟩
  · have h1 :
        cart.filterMap (fun item =>
            if item.id == productId then
              let newQuantity := item.quantity + delta
              if newQuantity > 0 then some { item with quantity := newQuantity } else none
            else some item)
          = cart.map id :=
      List.filterMap_eq_map_iff_forall_eq_some.mpr (fun x hx => by
        have hx' : (x.id == productId) = false := by simpa using habs x hx
        simp [hx'])
    simpa [updateQuantity] using h1
  · exact List.filter_eq_self.mpr (fun item h => by simpa using habs item h)

/-- C4 witness: on the concrete one-line cart, targeting the absent id 99
leaves the cart unchanged. -/
theorem absent_target_noop_witness :
    (∀ item ∈ demoCart, item.id ≠ (99 : Int)) ∧
    (updateQuantity demoCart 99 (-1) = demoCart ∧ removeItem demoCart 99 = demoCart) :=
  ⟨by decide, absent_target_noop demoCart 99 (-1) (by decide)⟩

/-- C9: in the Firestore-backed variant the derived totals carry a shipping
charge, not a tax term: shipping is 0 exactly when the subtotal exceeds
1000 and 50 otherwise, and the total is subtotal plus shipping. -/
theorem fs_totals_shipping (items : Cart) :
    (fsCartTotals items).subtotal
        = (items.map (fun item => (item.quantity : ℚ) * item.price)).sum ∧
    (fsCartTotals items).shipping
        = (if (fsCartTotals items).subtotal > 1000 then 0 else 50) ∧
    (fsCartTotals items).total
        = (fsCartTotals items).subtotal + (fsCartTotals items).shipping := by
  refine ⟨?_, rfl, rfl⟩
  simpa [fsCartTotals] using foldl_price_eq_sum items 0

/-- C2: lines always carry strictly positive quantities: on a cart whose
lines all have positive quantity, a quantity change driving the matching
line to ≤ 0 removes that line outright (no quantity-0 line is stored), and
`addToCart`, `updateQuantity`, `removeItem`, `clearCart` and the Firestore
variant's `updateCartItemQuantity` all keep every remaining line's
quantity positive. -/
theorem positive_quantity_invariant (cart : Cart) (productId delta : Int) (product : Product)
    (hpos : PosQty cart) :
    ((∀ item ∈ cart, item.id = productId → item.quantity + delta ≤ 0) →
        ∀ item ∈ updateQuantity cart productId delta, item.id ≠ productId) ∧
    PosQty (addToCart cart product) ∧
    PosQty (updateQuantity cart productId delta) ∧
    PosQty (removeItem cart productId) ∧
    PosQty (clearCart cart) ∧
    ((∀ item ∈ cart, item.id = productId → item.quantity + delta ≤ 0) →
        ∀ item ∈ updateCartItemQuantity cart productId delta, item.id ≠ productId) ∧
    PosQty (updateCartItemQuantity cart productId delta) := by
  refine ⟨?_, ?_, ?_, ?_, ?_, ?_, ?_⟩
  · intro hle item hmem
    simp only [updateQuantity, List.mem_filterMap] at hmem
    obtain ⟨a, ha, hfa⟩ := hmem
    by_cases hid : a.id = productId
    · have h0 : ¬ (0 < a.quantity + delta) := by have := hle a ha hid; omega
      simp [hid, h0] at hfa
    · have hid' : (a.id == productId) = false := by simpa using hid
      simp only [hid', Bool.false_eq_true, if_false, Option.some.injEq] at hfa
      exact hfa ▸ hid
  · intro item hmem
    unfold addToCart at hmem
    rcases hf : cart.find? (fun item => item.id == product.id) with _ | a
    · rw [hf] at hmem
      simp only [List.mem_append, List.mem_singleton] at hmem
      rcases hmem with h | h
      · exact hpos item h
      · simp [h]
    · rw [hf] at hmem
      rw [List.mem_map] at hmem
      obtain ⟨a, ha, rfl⟩ := hmem
      by_cases h : (a.id == product.id) = true
      · have := hpos a ha
        simp only [h, if_true]
        omega
      · rw [Bool.not_eq_true] at h
        simp only [h, Bool.false_eq_true, if_false]
        exact hpos a ha
  · intro item hmem
    simp only [updateQuantity, List.mem_filterMap] at hmem
    obtain ⟨a, ha, hfa⟩ := hmem
    by_cases hid : (a.id == productId) = true
    · simp only [hid, if_true] at hfa
      by_cases hq : 0 < a.quantity + delta
      · simp only [hq, if_true, Option.some.injEq] at hfa
        simpa [← hfa] using hq
      · simp [hq] at hfa
    · rw [Bool.not_eq_true] at hid
      simp only [hid, Bool.false_eq_true, if_false, Option.some.injEq] at hfa
      exact hfa ▸ hpos a ha
  · intro item hmem
    exact hpos item (List.mem_of_mem_filter hmem)
  · intro item hmem
    simp [clearCart] at hmem
  · intro hle item hmem
    simp only [updateCartItemQuantity, List.mem_filter, List.mem_map,
      decide_eq_true_eq] at hmem
    obtain ⟨⟨a, ha, hfa⟩, hq⟩ := hmem
    intro hcontra
    by_cases hid : (a.id == productId) = true
    · simp only [hid, if_true] at hfa
      have h1 : item.quantity = a.quantity + delta := by rw [← hfa]
      have h2 := hle a ha (by simpa using hid)
      omega
    · rw [Bool.not_eq_true] at hid
      simp only [hid, Bool.false_eq_true, if_false] at hfa
      subst hfa
      simp [hcontra] at hid
  · intro item hmem
    simp only [updateCartItemQuantity, List.mem_filter, decide_eq_true_eq] at hmem
    exact hmem.2

/-- C2 witness: the concrete one-line cart has positive quantities, and
decrementing its only line (quantity 1) by 1 with `updateQuantity` leaves a
cart whose lines all still have positive quantity. -/
theorem positive_quantity_invariant_witness :
    PosQty demoCart ∧ PosQty (updateQuantity demoCart 1 (-1)) :=
  ⟨by simp [PosQty, demoCart],
   (positive_quantity_invariant demoCart 1 (-1) productA
      (by simp [PosQty, demoCart])).2.2.1⟩

/-- Helper: a `filterMap` whose function preserves the product id produces
an id list that is a sublist of the original id list. -/
theorem ids_of_filterMap_sublist (f : CartItem → Option CartItem)
    (hf : ∀ a b, f a = some b → b.id = a.id) :
    ∀ l : Cart, ((l.filterMap f).map CartItem.id).Sublist (l.map CartItem.id) := by
  intro l
  induction l with
  | nil => simp
  | cons hd tl ih =>
      rw [List.filterMap_cons, List.map_cons]
      cases hfa : f hd with
      | none => exact ih.cons _
      | some b =>
          rw [List.map_cons, hf hd b hfa]
          exact ih.cons₂ _

/-- C5: uniqueness by product id is an invariant: if a cart's lines have
pairwise distinct ids, so do the carts returned by `addToCart`,
`updateQuantity`, `removeItem` and `clearCart` (adding an already-present
product increments the existing line instead of appending a duplicate). -/
theorem unique_ids_invariant (cart : Cart) (productId delta : Int) (product : Product)
    (hU : (cart.map CartItem.id).Nodup) :
    ((addToCart cart product).map CartItem.id).Nodup ∧
    ((updateQuantity cart productId delta).map CartItem.id).Nodup ∧
    ((removeItem cart productId).map CartItem.id).Nodup ∧
    ((clearCart cart).map CartItem.id).Nodup := by
  refine ⟨?_, ?_, ?_, ?_⟩
  · unfold addToCart
    rcases hf : cart.find? (fun item => item.id == product.id) with _ | a
    · rw [hf]
      have hnotin : product.id ∉ cart.map CartItem.id := by
        intro hmem
        rw [List.mem_map] at hmem
        obtain ⟨a, ha, haid⟩ := hmem
        have := List.find?_eq_none.mp hf a ha
        simp [haid] at this
      simp [List.nodup_append, hU, hnotin]
    · rw [hf]
      have hids : (cart.map (fun item =>
            if item.id == product.id then { item with quantity := item.quantity + 1 }
            else item)).map CartItem.id = cart.map CartItem.id := by
        rw [List.map_map]
        apply List.map_congr_left
        intro a _
        by_cases h : a.id = product.id
        · simp [h]
        · simp [h]
      rw [hids]
      exact hU
  · refine hU.sublist (ids_of_filterMap_sublist _ ?_ cart)
    intro a b h
    by_cases hid : (a.id == productId) = true
    · simp only [hid, if_true] at h
      by_cases hq : 0 < a.quantity + delta
      · simp only [hq, if_true, Option.some.injEq] at h
        rw [← h]
      · simp [hq] at h
    · rw [Bool.not_eq_true] at hid
      simp only [hid, Bool.false_eq_true, if_false, Option.some.injEq] at h
      rw [← h]
  · exact hU.sublist ((List.filter_sublist cart).map CartItem.id)
  · simp [clearCart]

/-- C5 witness: the concrete one-line cart has distinct ids, and adding the
already-present product keeps the id list duplicate-free. -/
theorem unique_ids_invariant_witness :
    (demoCart.map CartItem.id).Nodup ∧
    ((addToCart demoCart productA).map CartItem.id).Nodup :=
  ⟨by simp [demoCart],
   (unique_ids_invariant demoCart 1 1 productA (by simp [demoCart])).1⟩

/-- Helper: equation for `addToCart` when `find?` hits an existing line. -/
theorem addToCart_eq_map (cart : Cart) (P : Product) (a : CartItem)
    (h : cart.find? (fun item => item.id == P.id) = some a) :
    addToCart cart P = cart.map (fun item =>
      if item.id == P.id then { item with quantity := item.quantity + 1 } else item) := by
  unfold addToCart
  rw [h]

/-- Helper: equation for `addToCart` when no line matches. -/
theorem addToCart_eq_append (cart : Cart) (P : Product)
    (h : cart.find? (fun item => item.id == P.id) = none) :
    addToCart cart P = cart ++ [{ id := P.id, name := P.name, price := P.price,
                                  image := P.image, quantity := 1 }] := by
  unfold addToCart
  rw [h]

/-- Helper: the derived `itemCount` is the sum of the quantities. -/
theorem itemCount_eq (cart : Cart) (taxRate : ℚ) :
    (computeTotals cart taxRate).itemCount = (cart.map (fun item => item.quantity)).sum := by
  simpa [computeTotals] using foldl_quantity_eq_sum cart 0

/-- Helper: on a duplicate-free cart containing a line for `P.id`, bumping
the matching line adds exactly 1 to the sum of quantities. -/
theorem sum_quantity_map_bump (P : Product) :
    ∀ l : Cart, (∃ a ∈ l, a.id = P.id) → (l.map CartItem.id).Nodup →
      ((l.map (fun item =>
          if item.id == P.id then { item with quantity := item.quantity + 1 }
          else item)).map (fun item => item.quantity)).sum
        = (l.map (fun item => item.quantity)).sum + 1 := by
  intro l
  induction l with
  | nil =>
      rintro ⟨a, ha, _⟩ _
      simp at ha
  | cons hd tl ih =>
      rintro ⟨a, ha, haid⟩ hU
      have hU' : hd.id ∉ tl.map CartItem.id ∧ (tl.map CartItem.id).Nodup := by
        simpa [List.nodup_cons] using hU
      by_cases hhd : hd.id = P.id
      · have hmap : tl.map (fun item =>
            if item.id == P.id then { item with quantity := item.quantity + 1 }
            else item) = tl := by
          have hcong : ∀ x ∈ tl,
              (if x.id == P.id then { x with quantity := x.quantity + 1 } else x) = id x := by
            intro x hx
            have hxne : x.id ≠ P.id := by
              intro hxid
              exact hU'.1 (List.mem_map.mpr ⟨x, hx, by rw [hxid, hhd]⟩)
            simp [hxne]
          rw [List.map_congr_left hcong, List.map_id]
        simp only [List.map_cons, List.sum_cons, hmap]
        have hfhd : (if hd.id == P.id then { hd with quantity := hd.quantity + 1 } else hd)
            = { hd with quantity := hd.quantity + 1 } := by simp [hhd]
        rw [hfhd]
        simp only []
        omega
      · have hatl : ∃ a ∈ tl, a.id = P.id := by
          rcases List.mem_cons.mp ha with rfl | h
          · exact absurd haid hhd
          · exact ⟨a, h, haid⟩
        have htl := ih hatl hU'.2
        have hfhd : (if hd.id == P.id then { hd with quantity := hd.quantity + 1 } else hd)
            = hd := by simp [hhd]
        simp only [List.map_cons, List.sum_cons, hfhd, htl]
        omega

/-- C3: on a duplicate-free cart, `addToCart` bumps the matching line's
quantity by exactly 1 leaving all other lines unchanged in place, appends a
fresh quantity-1 line at the end when no line matches, and in both cases
the derived `itemCount` grows by exactly 1. -/
theorem addToCart_adds_one (cart : Cart) (P : Product)
    (hU : (cart.map CartItem.id).Nodup) :
    ((∃ item ∈ cart, item.id = P.id) →
        (addToCart cart P).length = cart.length ∧
        ∀ (i : Nat) (h : i < cart.length),
          (addToCart cart P)[i]?
            = some (if (cart.get ⟨i, h⟩).id = P.id
                then { cart.get ⟨i, h⟩ with quantity := (cart.get ⟨i, h⟩).quantity + 1 }
                else cart.get ⟨i, h⟩)) ∧
    ((∀ item ∈ cart, item.id ≠ P.id) →
        addToCart cart P
          = cart ++ [{ id := P.id, name := P.name, price := P.price, image := P.image,
                       quantity := 1 }]) ∧
    ∀ taxRate : ℚ, (computeTotals (addToCart cart P) taxRate).itemCount
        = (computeTotals cart taxRate).itemCount + 1 := by
  refine ⟨?_, ?_, ?_⟩
  · intro hex
    obtain ⟨b, hb, hbid⟩ := hex
    have hsome : (cart.find? (fun item => item.id == P.id)).isSome := by
      rw [List.find?_isSome]
      exact ⟨b, hb, by simpa using hbid⟩
    obtain ⟨a, hfa⟩ := Option.isSome_iff_exists.mp hsome
    rw [addToCart_eq_map cart P a hfa]
    refine ⟨by simp, ?_⟩
    intro i h
    simp only [List.get_eq_getElem]
    rw [List.getElem?_map, List.getElem?_eq_getElem h]
    by_cases hc : cart[i].id = P.id
    · simp [hc]
    · simp [hc]
  · intro habs
    apply addToCart_eq_append
    rw [List.find?_eq_none]
    intro a ha
    simpa using habs a ha
  · intro taxRate
    rw [itemCount_eq, itemCount_eq]
    rcases hfa : cart.find? (fun item => item.id == P.id) with _ | a
    · rw [addToCart_eq_append cart P hfa]
      simp
    · rw [addToCart_eq_map cart P a hfa]
      have ha := List.mem_of_find?_eq_some hfa
      have haid : a.id = P.id := by simpa using List.find?_some hfa
      exact sum_quantity_map_bump P cart ⟨a, ha, haid⟩ hU

/-- C3 witness: adding the already-present product to the concrete
one-line cart grows the derived `itemCount` by exactly 1. -/
theorem addToCart_adds_one_witness :
    (demoCart.map CartItem.id).Nodup ∧
    (computeTotals (addToCart demoCart productA) appTaxRate).itemCount
      = (computeTotals demoCart appTaxRate).itemCount + 1 :=
  ⟨by simp [demoCart],
   (addToCart_adds_one demoCart productA (by simp [demoCart])).2.2 appTaxRate⟩

/-- C7: checkout on a non-empty cart clears the line list and produces the
success message; checkout on an empty cart is rejected with the warning
message and the state's cart is unchanged. -/
theorem checkout_clears_iff_nonempty (s : AppState) :
    (s.cart ≠ [] →
        handlePurchase s
          = { cart := [],
              purchaseMessage := some (PurchaseMessage.success
                (computeTotals s.cart appTaxRate).total
                (computeTotals s.cart appTaxRate).itemCount) }) ∧
    (s.cart = [] →
        handlePurchase s
          = { s with purchaseMessage := some PurchaseMessage.emptyCartWarning }) := by
  constructor
  · intro h
    have hlen : ¬ s.cart.length = 0 := by
      simpa [List.length_eq_zero] using h
    simp [handlePurchase, hlen, clearCart]
  · intro h
    simp [handlePurchase, h]

/-- C7 witness: purchasing the concrete non-empty cart empties it and sets
the success message. -/
theorem checkout_clears_iff_nonempty_witness :
    demoCart ≠ [] ∧
    handlePurchase { cart := demoCart, purchaseMessage := none }
      = { cart := [],
          purchaseMessage := some (PurchaseMessage.success
            (computeTotals demoCart appTaxRate).total
            (computeTotals demoCart appTaxRate).itemCount) } :=
  ⟨by simp [demoCart],
   (checkout_clears_iff_nonempty { cart := demoCart, purchaseMessage := none }).1
     (by simp [demoCart])⟩

/-- C10: in the DOM-based variant, a quantity-input change whose value is
not a number or is ≤ 0 is coerced to exactly 1 and the row is kept: the
cart keeps the same number of rows, row `i` survives with quantity 1, and
every other row is untouched. -/
theorem quantityChanged_invalid_coerced (rows : List DomRow) (i : Nat) (v : Option ℚ)
    (hi : i < rows.length) (hv : v = none ∨ ∃ x, v = some x ∧ x ≤ 0) :
    (quantityChanged rows i v).length = rows.length ∧
    (quantityChanged rows i v)[i]?
      = some { rows.get ⟨i, hi⟩ with quantity := some 1 } ∧
    ∀ j : Nat, j ≠ i → (quantityChanged rows i v)[j]? = rows[j]? := by
  have hcoerce : coerceQuantity v = some 1 := by
    rcases hv with rfl | ⟨x, rfl, hx⟩
    · rfl
    · simp [coerceQuantity, hx]
  have hlen : (quantityChanged rows i v).length = rows.length := by
    simp [quantityChanged]
  refine ⟨hlen, ?_, ?_⟩
  · simp only [quantityChanged, List.getElem?_mapIdx, List.getElem?_eq_getElem hi]
    simp [hcoerce]
  · intro j hj
    simp only [quantityChanged, List.getElem?_mapIdx]
    cases hrj : rows[j]? with
    | none => rfl
    | some r => simp [hj]

/-- C10 witness: changing the single row's input to -3 keeps the row and
coerces its quantity to 1. -/
theorem quantityChanged_invalid_coerced_witness :
    ((0 : Nat) < [{ title := "Gloves", price := 10, quantity := some 2 : DomRow }].length) ∧
    (quantityChanged [{ title := "Gloves", price := 10, quantity := some 2 : DomRow }] 0
        (some (-3)))[0]?
      = some { title := "Gloves", price := 10, quantity := some 1 : DomRow } :=
  ⟨by simp,
   ((quantityChanged_invalid_coerced
      [{ title := "Gloves", price := 10, quantity := some 2 : DomRow }] 0 (some (-3))
      (by simp) (Or.inr ⟨-3, rfl, by norm_num⟩)).2.1)⟩
